import Mathlib

/-!
Verification of the video-processing demo tool (`main.py`).

The embedding models the three directories as association lists, frames as
lists of rows of 8-bit BGR triples, and the OpenCV calls as Lean functions:
`cv2.cvtColor(·, COLOR_BGR2GRAY)` by OpenCV's fixed-point luminance formula,
`cv2.cvtColor(·, COLOR_GRAY2BGR)` by channel replication, and
`cv2.addWeighted(f, 0.7, e, 0.3, 0)` by the exact-rational weighted sum with
saturation (machine floats are modelled as exact rationals).  `cv2.Canny` is
a third-party black box and is kept as a parameter of the pipeline.
Python exceptions are modelled with an explicit `PyRes` result type; a
possible failure of `out.write` (the spec's WriteFault) is modelled by an
optional index `failAt` at which the write raises.
-/

/-- One 8-bit BGR pixel `(b, g, r)`. -/
abbrev Pix := Nat × Nat × Nat

/-- A 3-channel frame: rows of BGR pixels (`numpy` array of shape H×W×3). -/
abbrev Img := List (List Pix)

/-- A single-channel image: rows of 8-bit samples. -/
abbrev GrayImg := List (List Nat)

/-- The `numpy` shape of a 3-channel frame: (height, width, 3). -/
def imgShape (f : Img) : Nat × Nat × Nat := (f.length, (f.headD []).length, 3)

/-- OpenCV 8-bit BGR→gray luminance: fixed-point `0.299 R + 0.587 G + 0.114 B`
with coefficients at scale `2^14`. -/
def lumaPix (p : Pix) : Nat :=
  (p.2.2 * 4899 + p.2.1 * 9617 + p.1 * 1868 + 8192) / 16384

/-- Model of `cv2.cvtColor(frame, cv2.COLOR_BGR2GRAY)`. -/
def cvtColorBGR2GRAY (f : Img) : GrayImg := f.map (List.map lumaPix)

/-- Model of `cv2.cvtColor(gray, cv2.COLOR_GRAY2BGR)`: replicate the channel. -/
def cvtColorGRAY2BGR (g : GrayImg) : Img :=
  g.map (List.map (fun v => (v, v, v)))

/-- Model of `saturate_cast<uchar>`: clamp an integer to the 8-bit range. -/
def satUchar (z : ℤ) : Nat := (min (max z 0) 255).toNat

/-- One channel of `cv2.addWeighted(a, 0.7, b, 0.3, 0)`, with the float
weights modelled as exact rationals and rounding to nearest. -/
def blendChan (x y : Nat) : Nat :=
  satUchar (round ((7 * (x : ℚ) + 3 * (y : ℚ)) / 10))

/-- Model of `cv2.addWeighted` on one BGR pixel. -/
def blendPix (a b : Pix) : Pix :=
  (blendChan a.1 b.1, blendChan a.2.1 b.2.1, blendChan a.2.2 b.2.2)

/-- Model of `cv2.addWeighted(a, 0.7, b, 0.3, 0)` elementwise on frames. -/
def addWeighted (a b : Img) : Img :=
  List.zipWith (fun ra rb => List.zipWith blendPix ra rb) a b

/-- The type of the `cv2.Canny` stand-in: gray image, low and high
hysteresis thresholds, to an edge map. -/
abbrev CannyFn := GrayImg → Nat → Nat → GrayImg

/-- The Frame Filter, `main.py` lines 51–59: gray conversion, Canny with
thresholds (100, 200), replication back to three channels, then the
shape-guarded 0.7/0.3 blend falling back to the original frame. -/
def frameFilter (canny : CannyFn) (frame : Img) : Img :=
  let gray := cvtColorBGR2GRAY frame
  let edges := canny gray 100 200
  let edges_colored := cvtColorGRAY2BGR edges
  if imgShape frame = imgShape edges_colored then
    addWeighted frame edges_colored
  else
    frame

/-- Result of a Python call: a returned value or a propagating exception. -/
inductive PyRes (α : Type) where
  | ok (a : α)
  | raised (msg : String)
deriving DecidableEq, Repr

/-- Returns `true` iff the call returned normally. -/
def PyRes.isOk : PyRes α → Bool
  | .ok _ => true
  | .raised _ => false

/-- A progress signal: fraction and description string. -/
abbrev Prog := ℚ × String

/-- A source video as seen through `cv2.VideoCapture`: header metadata
(width, height, fps, declared frame count) and the actually readable
frames in order. -/
structure Video where
  width : ℤ
  height : ℤ
  fps : ℚ
  declared : ℤ
  frames : List Img
deriving DecidableEq, Repr

/-- A written container file: the metadata the `cv2.VideoWriter` was
constructed with and the frames written to it. -/
structure VideoOut where
  width : ℤ
  height : ℤ
  fps : ℚ
  frames : List Img
deriving DecidableEq, Repr

/-- The per-frame progress message of `main.py` line 66. -/
def procMsg (k : Nat) (total : ℤ) : String :=
  "Processing frame " ++ toString k ++ "/" ++ toString total

/-- The frame loop of `apply_ml_processing` (`main.py` lines 45–68).
`n` is the remaining iteration count of `range(total_frames)`, `i` the
current index, `rest` the frames still readable, `w` the number of frames
already written.  Returns (frames written, progress calls, raised?);
`out.write` raises iff `failAt = some w`. -/
def mlLoop (canny : CannyFn) (total : ℤ) (failAt : Option Nat) (hasP : Bool) :
    Nat → Nat → List Img → Nat → List Img × List Prog × Bool
  | 0, _, _, _ => ([], [], false)
  | _ + 1, _, [], _ => ([], [], false)
  | n + 1, i, f :: rest, w =>
    let pf := frameFilter canny f
    if failAt = some w then ([], [], true)
    else
      let r := mlLoop canny total failAt hasP n (i + 1) rest (w + 1)
      (pf :: r.1,
       (if hasP then [(((i : ℚ) + 1) / (total : ℚ), procMsg (i + 1) total)] else [])
         ++ r.2.1,
       r.2.2)

/-- Observable outcome of one `apply_ml_processing` call. -/
structure MLRun where
  result : PyRes String
  capReleased : Bool
  outReleased : Bool
  written : List Img
  created : List (String × VideoOut)
  calls : List Prog
deriving DecidableEq, Repr

/-- Model of `apply_ml_processing(video_path, progress)` (`main.py` lines 17–74).
`src` is the outcome of `cv2.VideoCapture` on the path (`none` = cannot
open), `videoName` the basename of the path, `hasP` whether a progress
callback was supplied.  The output file is created by the `VideoWriter`
constructor, before the loop; the release calls on lines 71–72 run only
when the loop ends without an exception. -/
def apply_ml_processing (canny : CannyFn) (src : Option Video)
    (videoName : String) (failAt : Option Nat) (hasP : Bool) : MLRun :=
  match src with
  | none => ⟨.raised "Could not open the video", false, false, [], [], []⟩
  | some v =>
    let outName := "processed_" ++ videoName
    let r := mlLoop canny v.declared failAt hasP v.declared.toNat 0 v.frames 0
    let calls :=
      (if hasP then [((0 : ℚ), "Starting video processing...")] else []) ++ r.2.1
    let created := [(outName, VideoOut.mk v.width v.height v.fps r.1)]
    if r.2.2 then
      ⟨.raised "write error", false, false, r.1, created, calls⟩
    else
      ⟨.ok ("processed_videos/" ++ outName), true, true, r.1, created, calls⟩

/-- The grayscale demo effect (`main.py` lines 112–113): gray conversion
then replication back to three channels. -/
def grayFrame (f : Img) : Img := cvtColorGRAY2BGR (cvtColorBGR2GRAY f)

/-- The ten staged demo progress calls of `main.py` lines 129–132. -/
def demoSteps : List Prog :=
  (List.range 10).map (fun (i : ℕ) =>
    (((i : ℚ) + 1) / 10,
     "Demo Processing Step " ++ toString (i + 1) ++ "/10"))

/-- Observable outcome of one `demo_processing` call. -/
structure DemoRun where
  result : PyRes String
  generated : List (String × VideoOut)
  calls : List Prog
deriving DecidableEq, Repr

/-- Model of `demo_processing(video_path, progress)` (`main.py` lines 76–134).
`demoFiles` is the `os.listdir(DEMO_DIR)` listing; when it is empty, the
source is opened and every readable frame (the `while True` loop ignores
the declared count) is written in grayscale to a fallback asset named
`demo_processed_` + basename; the first listed asset's path is returned. -/
def demo_processing (src : Option Video) (videoName : String)
    (demoFiles : List String) (hasP : Bool) : DemoRun :=
  if demoFiles = [] then
    match src with
    | none => ⟨.raised "Could not open the video", [], []⟩
    | some v =>
      let nm := "demo_processed_" ++ videoName
      let asset := (nm, VideoOut.mk v.width v.height v.fps (v.frames.map grayFrame))
      ⟨.ok ("demo_videos/" ++ nm), [asset], if hasP then demoSteps else []⟩
  else
    ⟨.ok ("demo_videos/" ++ demoFiles.headD ""), [],
     if hasP then demoSteps else []⟩

/-- Model of `os.path.basename` for POSIX paths: the part after the last slash. -/
def basename (p : String) : String :=
  ((p.toList.foldl (fun acc c => if c = '/' then [] else acc ++ [c]) []).asString)

/-- Store a file in a directory listing, overwriting an existing entry of
the same name (the semantics of `shutil.copy` / `cv2.VideoWriter` onto an
existing path). -/
def setFile {α : Type} (l : List (String × α)) (k : String) (v : α) :
    List (String × α) :=
  if l.any (fun p => p.1 == k) then
    l.map (fun p => if p.1 == k then (k, v) else p)
  else
    l ++ [(k, v)]

/-- Look a file up in a directory listing. -/
def lookupFile {α : Type} (l : List (String × α)) (k : String) : Option α :=
  (l.find? (fun p => p.1 == k)).map (·.2)

/-- The filesystem: source files outside the tool's areas (keyed by full
path) and the three flat directories (keyed by file name). -/
structure FS where
  external : List (String × Video)
  uploads : List (String × Video)
  processed : List (String × VideoOut)
  demos : List (String × VideoOut)
deriving Repr

/-- Environment of one dispatcher call: the Canny black box and the
modelled write-fault index for the transcode loop. -/
structure Env where
  canny : CannyFn
  failAt : Option Nat

/-- Observable outcome of one `process_video` call. -/
structure PVRun where
  result : PyRes (Option String)
  fs : FS
  calls : List Prog

/-- Model of `process_video(video, mode, progress)` (`main.py` lines 136–162).
The copy into the upload area happens before the `try` block, so a missing
source path raises; the `try` block covers only the two processing branches
and converts their exceptions to a `None` return.  `progress` has a
non-`None` default, so the sub-calls always receive a callback. -/
def process_video (env : Env) (fs : FS) (video : Option String)
    (mode : String) : PVRun :=
  match video with
  | none => ⟨.ok none, fs, []⟩
  | some vp =>
    let videoName := basename vp
    match lookupFile fs.external vp with
    | none => ⟨.raised "FileNotFoundError", fs, []⟩
    | some content =>
      let fs1 : FS := { fs with uploads := setFile fs.uploads videoName content }
      let calls0 : List Prog := [((1 : ℚ) / 10, "Video uploaded and saved")]
      if mode = "demo" then
        let d := demo_processing (lookupFile fs1.uploads videoName) videoName
          (fs1.demos.map (·.1)) true
        let fs2 : FS := { fs1 with
          demos := d.generated.foldl (fun acc kv => setFile acc kv.1 kv.2) fs1.demos }
        match d.result with
        | .raised _ => ⟨.ok none, fs2, calls0 ++ d.calls⟩
        | .ok p =>
          ⟨.ok (some p), fs2, calls0 ++ d.calls ++ [((1 : ℚ), "Processing complete!")]⟩
      else
        let m := apply_ml_processing env.canny (lookupFile fs1.uploads videoName)
          videoName env.failAt true
        let fs2 : FS := { fs1 with
          processed := m.created.foldl (fun acc kv => setFile acc kv.1 kv.2) fs1.processed }
        match m.result with
        | .raised _ => ⟨.ok none, fs2, calls0 ++ m.calls⟩
        | .ok p =>
          ⟨.ok (some p), fs2, calls0 ++ m.calls ++ [((1 : ℚ), "Processing complete!")]⟩

/-- A concrete stand-in edge detector, used only to instantiate the
Canny-parameterized theorems at concrete inputs. -/
def cannyStub : CannyFn := fun g _ _ => g

/-- A concrete 1×1 black frame, for instantiating theorems. -/
def frame0 : Img := [[(0, 0, 0)]]

/-- A concrete source video with one declared and one readable frame. -/
def vidOne : Video := ⟨1, 1, 30, 1, [frame0]⟩

/-- A concrete source video whose header declares zero frames. -/
def vidEmpty : Video := ⟨2, 2, 30, 0, []⟩

/-- A concrete source video whose header declares a negative frame count. -/
def vidNeg : Video := ⟨3, 2, 24, -2, [frame0]⟩

/-! ## Helper lemmas -/

theorem addWeighted_shape (a b : Img) (h : imgShape a = imgShape b) :
    imgShape (addWeighted a b) = imgShape a := by
  simp only [imgShape, Prod.mk.injEq, and_true] at h
  obtain ⟨h1, h2⟩ := h
  cases a with
  | nil =>
    have hb : b = [] := by
      cases b with
      | nil => rfl
      | cons rb tb => simp at h1
    subst hb; rfl
  | cons ra ta =>
    cases b with
    | nil => simp at h1
    | cons rb tb =>
      simp only [List.length_cons, Nat.succ.injEq] at h1
      simp only [List.headD_cons] at h2
      simp [imgShape, addWeighted, List.length_zipWith, h1, h2]

theorem mlLoop_none_spec (canny : CannyFn) (total : ℤ) (hasP : Bool) :
    ∀ (n : Nat) (rest : List Img) (i w : Nat),
      (mlLoop canny total none hasP n i rest w).1
          = (rest.take n).map (frameFilter canny)
        ∧ (mlLoop canny total none hasP n i rest w).2.2 = false := by
  intro n
  induction n with
  | zero => intro rest i w; simp [mlLoop]
  | succ n ih =>
    intro rest i w
    cases rest with
    | nil => simp [mlLoop]
    | cons f rest => simp [mlLoop, ih rest (i + 1) (w + 1)]

theorem mlLoop_hasP_indep (canny : CannyFn) (total : ℤ) (failAt : Option Nat) :
    ∀ (n : Nat) (rest : List Img) (i w : Nat),
      (mlLoop canny total failAt true n i rest w).1
          = (mlLoop canny total failAt false n i rest w).1
        ∧ (mlLoop canny total failAt true n i rest w).2.2
          = (mlLoop canny total failAt false n i rest w).2.2 := by
  intro n
  induction n with
  | zero => intro rest i w; simp [mlLoop]
  | succ n ih =>
    intro rest i w
    cases rest with
    | nil => simp [mlLoop]
    | cons f rest =>
      simp only [mlLoop]
      split
      · simp
      · simp [ih rest (i + 1) (w + 1)]

theorem mlLoop_noraise_fracs (canny : CannyFn) (total : ℤ) (failAt : Option Nat) :
    ∀ (n : Nat) (rest : List Img) (i w : Nat),
      (mlLoop canny total failAt true n i rest w).2.2 = false →
      (mlLoop canny total failAt true n i rest w).2.1.map Prod.fst
        = (List.range (min n rest.length)).map
            (fun j => (((i + j : ℕ) : ℚ) + 1) / (total : ℚ)) := by
  intro n
  induction n with
  | zero => intro rest i w _; simp [mlLoop]
  | succ n ih =>
    intro rest i w h
    cases rest with
    | nil => simp [mlLoop]
    | cons f rest =>
      simp only [mlLoop] at h ⊢
      by_cases hfail : failAt = some w
      · rw [if_pos hfail] at h; simp at h
      · rw [if_neg hfail] at h ⊢
        have hmap : List.map ((fun j => (((i + j : ℕ) : ℚ) + 1) / (total : ℚ)) ∘ Nat.succ)
              (List.range (min n rest.length))
            = List.map (fun j => ((((i + 1) + j : ℕ) : ℚ) + 1) / (total : ℚ))
              (List.range (min n rest.length)) := by
          apply List.map_congr_left
          intro j _
          simp only [Function.comp_apply]
          push_cast
          ring
        rw [List.length_cons, Nat.succ_min_succ, List.range_succ_eq_map,
          List.map_cons, List.map_map, hmap]
        simp only [List.map_append, if_true]
        rw [ih rest (i + 1) (w + 1) h]
        simp only [List.map_cons, List.map_nil, List.singleton_append]
        congr 1

theorem chainAux (t : ℚ) (ht : 0 < t) :
    ∀ (k i : ℕ), ((i : ℚ) + (k : ℚ)) ≤ t →
      List.Chain' (· ≤ ·)
        (((List.range k).map (fun j => (((i + j : ℕ) : ℚ) + 1) / t)) ++ [1]) := by
  intro k
  induction k with
  | zero => intro i _; simp
  | succ k ih =>
    intro i hk
    rw [List.range_succ_eq_map]
    simp only [List.map_cons, List.map_map, List.cons_append]
    apply List.chain'_cons'.mpr
    constructor
    · intro y hy
      cases k with
      | zero =>
        simp at hy
        subst hy
        rw [div_le_one ht]
        push_cast at hk ⊢
        linarith
      | succ m =>
        rw [List.range_succ_eq_map] at hy
        simp only [List.map_cons, Function.comp_apply, List.cons_append,
          List.head?_cons, Option.mem_def, Option.some.injEq] at hy
        subst hy
        rw [div_le_div_iff_of_pos_right ht]
        push_cast
        linarith
    · have hmap : List.map ((fun j => (((i + j : ℕ) : ℚ) + 1) / t) ∘ Nat.succ)
            (List.range k)
          = List.map (fun j => ((((i + 1) + j : ℕ) : ℚ) + 1) / t) (List.range k) := by
        apply List.map_congr_left
        intro j _
        simp only [Function.comp_apply]
        push_cast
        ring
      rw [hmap]
      apply ih (i + 1)
      push_cast at hk ⊢
      linarith

theorem last_append_singleton {α : Type} (l : List α) (x : α) :
    (l ++ [x]).getLast? = some x := by
  induction l with
  | nil => rfl
  | cons a l ih =>
    cases l with
    | nil => rfl
    | cons b t =>
      simp only [List.cons_append] at ih ⊢
      rw [List.getLast?_cons_cons]
      exact ih

theorem lookupFile_cons {α : Type} (a : String × α) (t : List (String × α))
    (k : String) :
    lookupFile (a :: t) k = if (a.1 == k) then some a.2 else lookupFile t k := by
  by_cases h : a.1 == k <;> simp [lookupFile, List.find?_cons, h]

theorem lookupFile_setFile_self {α : Type} (l : List (String × α)) (k : String)
    (v : α) : lookupFile (setFile l k v) k = some v := by
  unfold setFile
  by_cases hany : l.any (fun p => p.1 == k)
  · rw [if_pos hany]
    induction l with
    | nil => simp at hany
    | cons a t ih =>
      by_cases ha : a.1 == k
      · simp only [List.map_cons, if_pos ha]
        rw [lookupFile_cons]
        simp
      · simp only [List.any_cons, ha, Bool.false_or] at hany
        simp only [List.map_cons, if_neg ha]
        rw [lookupFile_cons, if_neg (by simpa using ha)]
        exact ih hany
  · rw [if_neg hany]
    induction l with
    | nil =>
      rw [List.nil_append, lookupFile_cons]
      simp
    | cons a t ih =>
      simp only [List.any_cons, Bool.or_eq_true, not_or] at hany
      rw [List.cons_append, lookupFile_cons, if_neg (by simpa using hany.1)]
      exact ih (by simpa using hany.2)

theorem demoSteps_chain :
    List.Chain' (· ≤ ·) ((demoSteps.map Prod.fst) ++ [(1 : ℚ)]) := by
  have he : demoSteps.map Prod.fst
      = (List.range 10).map (fun j => (((0 + j : ℕ) : ℚ) + 1) / 10) := by
    unfold demoSteps
    rw [List.map_map]
    apply List.map_congr_left
    intro j _
    simp
  rw [he]
  exact chainAux 10 (by norm_num) 10 0 (by norm_num)

/-! ## Claim theorems -/

/-- C1: For every 3-channel 8-bit input frame, the Frame Filter produces an
output of identical dimensions and channel depth, computed as the saturating
weighted sum 0.7 × original + 0.3 × (edge map replicated to three channels)
with Canny thresholds (100, 200) whenever the replicated edge map's shape
equals the input frame's shape, and as the unchanged original frame
otherwise. -/
theorem frame_filter_shape_and_blend (canny : CannyFn) (frame : Img) :
    imgShape (frameFilter canny frame) = imgShape frame ∧
    frameFilter canny frame =
      (if imgShape frame
          = imgShape (cvtColorGRAY2BGR (canny (cvtColorBGR2GRAY frame) 100 200)) then
        addWeighted frame (cvtColorGRAY2BGR (canny (cvtColorBGR2GRAY frame) 100 200))
      else frame) := by
  constructor
  · simp only [frameFilter]
    split
    · rename_i h
      exact addWeighted_shape _ _ h
    · rfl
  · rfl

/-- C2: For every source video that opens successfully (and whose declared
frame count is nonnegative), the Video Transcode Loop returns without
raising, writes exactly min(declared frame count, readable frames) frames,
and applies the Frame Filter to each frame that is read. -/
theorem transcode_writes_min_frames (canny : CannyFn) (v : Video)
    (name : String) (hasP : Bool) (h : 0 ≤ v.declared) :
    (apply_ml_processing canny (some v) name none hasP).result
      = PyRes.ok ("processed_videos/processed_" ++ name) ∧
    ((apply_ml_processing canny (some v) name none hasP).written.length : ℤ)
      = min v.declared (v.frames.length : ℤ) ∧
    (apply_ml_processing canny (some v) name none hasP).written
      = (v.frames.take v.declared.toNat).map (frameFilter canny) := by
  obtain ⟨hw, hr⟩ := mlLoop_none_spec canny v.declared hasP v.declared.toNat v.frames 0 0
  simp only [apply_ml_processing, hr, Bool.false_eq_true, if_false, hw]
  refine ⟨?_, ?_, ?_⟩ <;> try trivial
  rw [List.length_map, List.length_take]
  omega

/-- C2 witness: one declared and one readable frame. -/
theorem transcode_writes_min_frames_witness :
    (0 : ℤ) ≤ vidOne.declared ∧
    ((apply_ml_processing cannyStub (some vidOne) "a.mp4" none true).result
        = PyRes.ok ("processed_videos/processed_" ++ "a.mp4") ∧
      ((apply_ml_processing cannyStub (some vidOne) "a.mp4" none true).written.length : ℤ)
        = min vidOne.declared (vidOne.frames.length : ℤ) ∧
      (apply_ml_processing cannyStub (some vidOne) "a.mp4" none true).written
        = (vidOne.frames.take vidOne.declared.toNat).map (frameFilter cannyStub)) :=
  ⟨by decide, transcode_writes_min_frames cannyStub vidOne "a.mp4" true (by decide)⟩

/-- C7: For every successful invocation of the Video Transcode Loop, exactly
one output container file is created, its writer carries the source's width,
height and frame rate, and each frame read is written exactly once, in
order. -/
theorem transcode_single_output_metadata (canny : CannyFn) (v : Video)
    (name : String) (hasP : Bool) :
    (apply_ml_processing canny (some v) name none hasP).created
      = [("processed_" ++ name,
          VideoOut.mk v.width v.height v.fps
            ((v.frames.take v.declared.toNat).map (frameFilter canny)))] ∧
    (apply_ml_processing canny (some v) name none hasP).result
      = PyRes.ok ("processed_videos/processed_" ++ name) := by
  obtain ⟨hw, hr⟩ := mlLoop_none_spec canny v.declared hasP v.declared.toNat v.frames 0 0
  simp only [apply_ml_processing, hr, Bool.false_eq_true, if_false, hw]
  constructor <;> trivial

/-- C8: If the source opens but its declared frame count is zero or
negative, no frame is written, the per-frame progress callback is never
invoked (only the starting call happens, so the per-frame division by the
declared total is never evaluated), and an empty output container is still
created and its path returned. -/
theorem transcode_nonpositive_declared (canny : CannyFn) (v : Video)
    (name : String) (failAt : Option Nat) (hasP : Bool) (h : v.declared ≤ 0) :
    (apply_ml_processing canny (some v) name failAt hasP).written = [] ∧
    (apply_ml_processing canny (some v) name failAt hasP).calls
      = (if hasP then [((0 : ℚ), "Starting video processing...")] else []) ∧
    (apply_ml_processing canny (some v) name failAt hasP).result
      = PyRes.ok ("processed_videos/processed_" ++ name) ∧
    (apply_ml_processing canny (some v) name failAt hasP).created
      = [("processed_" ++ name, VideoOut.mk v.width v.height v.fps [])] := by
  have ht : v.declared.toNat = 0 := Int.toNat_of_nonpos h
  simp only [apply_ml_processing, ht, mlLoop, Bool.false_eq_true, if_false,
    List.append_nil]
  refine ⟨?_, ?_, ?_, ?_⟩ <;> trivial

/-- C8 witness: a declared count of −2. -/
theorem transcode_nonpositive_declared_witness :
    vidNeg.declared ≤ 0 ∧
    ((apply_ml_processing cannyStub (some vidNeg) "a.mp4" none true).written = [] ∧
      (apply_ml_processing cannyStub (some vidNeg) "a.mp4" none true).calls
        = [((0 : ℚ), "Starting video processing...")] ∧
      (apply_ml_processing cannyStub (some vidNeg) "a.mp4" none true).result
        = PyRes.ok ("processed_videos/processed_" ++ "a.mp4") ∧
      (apply_ml_processing cannyStub (some vidNeg) "a.mp4" none true).created
        = [("processed_" ++ "a.mp4", VideoOut.mk vidNeg.width vidNeg.height vidNeg.fps [])]) :=
  ⟨by decide, transcode_nonpositive_declared cannyStub vidNeg "a.mp4" none true (by decide)⟩

/-- C5 (amended): both the source capture and the destination writer are
released on the normal-completion and early-stop paths (every run whose
result is a normal return); on an exception raised inside the loop the
release calls on lines 71–72 are skipped, because the loop has no
try/finally. -/
theorem resources_released_on_ok_paths (canny : CannyFn) (src : Option Video)
    (name : String) (failAt : Option Nat) (hasP : Bool)
    (h : (apply_ml_processing canny src name failAt hasP).result.isOk = true) :
    (apply_ml_processing canny src name failAt hasP).capReleased = true ∧
    (apply_ml_processing canny src name failAt hasP).outReleased = true := by
  cases src with
  | none => simp [apply_ml_processing, PyRes.isOk] at h
  | some v =>
    simp only [apply_ml_processing] at h ⊢
    by_cases hr : (mlLoop canny v.declared failAt hasP v.declared.toNat 0 v.frames 0).2.2
    · rw [if_pos hr] at h
      simp [PyRes.isOk] at h
    · rw [if_neg hr] at h ⊢
      exact ⟨rfl, rfl⟩

/-- C5 witness: a run that completes normally has both resources
released. -/
theorem resources_released_on_ok_paths_witness :
    (apply_ml_processing cannyStub (some vidOne) "a.mp4" none true).result.isOk = true ∧
    ((apply_ml_processing cannyStub (some vidOne) "a.mp4" none true).capReleased = true ∧
      (apply_ml_processing cannyStub (some vidOne) "a.mp4" none true).outReleased = true) :=
  ⟨rfl, resources_released_on_ok_paths cannyStub (some vidOne) "a.mp4" none true rfl⟩

/-- C5 counterexample: when a write raises mid-loop, the exception
propagates with neither the capture nor the writer released, refuting the
claim that both are released on any exception raised after the handles are
acquired. -/
theorem release_skipped_on_write_fault :
    (apply_ml_processing cannyStub (some vidOne) "a.mp4" (some 0) true).result
      = PyRes.raised "write error" ∧
    (apply_ml_processing cannyStub (some vidOne) "a.mp4" (some 0) true).capReleased
      = false ∧
    (apply_ml_processing cannyStub (some vidOne) "a.mp4" (some 0) true).outReleased
      = false :=
  ⟨rfl, rfl, rfl⟩

/-- C6: if the demo area is empty the Demo Responder generates exactly one
grayscale fallback asset named `demo_processed_` + basename and returns its
path; if the demo area is non-empty it generates nothing and returns the
first listed asset's path, whatever the input video is. -/
theorem demo_responder_behavior (v : Video) (name : String)
    (files : List String) (hasP : Bool) :
    (files = [] →
      demo_processing (some v) name files hasP =
        ⟨PyRes.ok ("demo_videos/" ++ ("demo_processed_" ++ name)),
         [("demo_processed_" ++ name,
           VideoOut.mk v.width v.height v.fps (v.frames.map grayFrame))],
         if hasP then demoSteps else []⟩) ∧
    (files ≠ [] → ∀ src : Option Video,
      demo_processing src name files hasP =
        ⟨PyRes.ok ("demo_videos/" ++ files.headD ""), [],
         if hasP then demoSteps else []⟩) := by
  constructor
  · intro hf
    subst hf
    rfl
  · intro hf src
    simp [demo_processing, hf]

/-- C6 witness: both branches at concrete inputs. -/
theorem demo_responder_behavior_witness :
    (([] : List String) = [] ∧
      demo_processing (some vidOne) "a.mp4" [] true =
        ⟨PyRes.ok ("demo_videos/" ++ ("demo_processed_" ++ "a.mp4")),
         [("demo_processed_" ++ "a.mp4",
           VideoOut.mk vidOne.width vidOne.height vidOne.fps
             (vidOne.frames.map grayFrame))],
         if true then demoSteps else []⟩) ∧
    ((["d.mp4"] : List String) ≠ [] ∧
      demo_processing none "b.mp4" ["d.mp4"] true =
        ⟨PyRes.ok ("demo_videos/" ++ (["d.mp4"] : List String).headD ""), [],
         if true then demoSteps else []⟩) :=
  ⟨⟨rfl, (demo_responder_behavior vidOne "a.mp4" [] true).1 rfl⟩,
   ⟨by simp, (demo_responder_behavior vidOne "b.mp4" ["d.mp4"] true).2 (by simp) none⟩⟩

/-- C10: supplying or omitting the progress callback changes neither the
result path, the frames written, nor the files created, for both the
Video Transcode Loop and the Demo Responder. -/
theorem progress_callback_noninterference (canny : CannyFn) (src : Option Video)
    (name : String) (failAt : Option Nat) (files : List String) :
    (apply_ml_processing canny src name failAt true).result
      = (apply_ml_processing canny src name failAt false).result ∧
    (apply_ml_processing canny src name failAt true).written
      = (apply_ml_processing canny src name failAt false).written ∧
    (apply_ml_processing canny src name failAt true).created
      = (apply_ml_processing canny src name failAt false).created ∧
    (demo_processing src name files true).result
      = (demo_processing src name files false).result ∧
    (demo_processing src name files true).generated
      = (demo_processing src name files false).generated := by
  have hdemo : (demo_processing src name files true).result
        = (demo_processing src name files false).result ∧
      (demo_processing src name files true).generated
        = (demo_processing src name files false).generated := by
    by_cases hf : files = []
    · subst hf
      cases src <;> exact ⟨rfl, rfl⟩
    · simp [demo_processing, hf]
  cases src with
  | none => exact ⟨rfl, rfl, rfl, hdemo.1, hdemo.2⟩
  | some v =>
    obtain ⟨h1, h2⟩ :=
      mlLoop_hasP_indep canny v.declared failAt v.declared.toNat v.frames 0 0
    by_cases hc : (mlLoop canny v.declared failAt false v.declared.toNat 0 v.frames 0).2.2
    · simp only [apply_ml_processing, h1, h2, hc, if_true]
      refine ⟨?_, ?_, ?_, hdemo.1, hdemo.2⟩ <;> trivial
    · simp only [apply_ml_processing, h1, h2, if_neg hc]
      refine ⟨?_, ?_, ?_, hdemo.1, hdemo.2⟩ <;> trivial

theorem dispatchCalls_tail_last (l : List Prog) :
    ((([((1 : ℚ)/10, "Video uploaded and saved")] ++ l
        ++ [((1 : ℚ), "Processing complete!")]).map Prod.fst).tail
      = l.map Prod.fst ++ [(1 : ℚ)]) ∧
    (([((1 : ℚ)/10, "Video uploaded and saved")] ++ l
        ++ [((1 : ℚ), "Processing complete!")]).map Prod.fst).getLast?
      = some (1 : ℚ) := by
  constructor
  · simp [List.map_append]
  · rw [List.map_append]
    exact last_append_singleton _ _

/-- C3 (amended): the dispatcher returns null, without raising and without
touching the filesystem, when given no source (`None`); for a non-null path
that names no existing file, the copy step — which precedes the `try` block
— raises `FileNotFoundError`, which propagates, and the filesystem is
likewise untouched. -/
theorem dispatcher_null_and_missing_path (env : Env) (fs : FS) (mode : String)
    (vp : String) (h : lookupFile fs.external vp = none) :
    (process_video env fs none mode).result = PyRes.ok none ∧
    (process_video env fs none mode).fs = fs ∧
    (process_video env fs (some vp) mode).result = PyRes.raised "FileNotFoundError" ∧
    (process_video env fs (some vp) mode).fs = fs := by
  refine ⟨rfl, rfl, ?_, ?_⟩ <;> simp [process_video, h]

/-- C3 witness: a filesystem that does not contain the requested path. -/
theorem dispatcher_null_and_missing_path_witness :
    lookupFile (FS.mk [("b.mp4", vidOne)] [] [] []).external "a.mp4" = none ∧
    ((process_video ⟨cannyStub, none⟩ (FS.mk [("b.mp4", vidOne)] [] [] [])
          none "test").result = PyRes.ok none ∧
      (process_video ⟨cannyStub, none⟩ (FS.mk [("b.mp4", vidOne)] [] [] [])
          none "test").fs = FS.mk [("b.mp4", vidOne)] [] [] [] ∧
      (process_video ⟨cannyStub, none⟩ (FS.mk [("b.mp4", vidOne)] [] [] [])
          (some "a.mp4") "test").result = PyRes.raised "FileNotFoundError" ∧
      (process_video ⟨cannyStub, none⟩ (FS.mk [("b.mp4", vidOne)] [] [] [])
          (some "a.mp4") "test").fs = FS.mk [("b.mp4", vidOne)] [] [] []) :=
  ⟨rfl, dispatcher_null_and_missing_path ⟨cannyStub, none⟩
    (FS.mk [("b.mp4", vidOne)] [] [] []) "test" "a.mp4" rfl⟩

/-- C3 counterexample: with a non-null but nonexistent source path the
dispatcher raises `FileNotFoundError` instead of returning null, refuting
the claim that it returns null and never raises for every path that names
no existing file. -/
theorem dispatcher_missing_path_raises :
    (process_video ⟨cannyStub, none⟩ ⟨[], [], [], []⟩ (some "a.mp4") "test").result
      = PyRes.raised "FileNotFoundError" ∧
    (process_video ⟨cannyStub, none⟩ ⟨[], [], [], []⟩ (some "a.mp4") "test").result
      ≠ PyRes.ok none :=
  ⟨rfl, by decide⟩

/-- C9: when the transcode branch raises after the upload copy (here via a
write fault on the first frame), the dispatcher swallows the failure and
returns null, but the copy in the uploaded area and the partially written
output container remain on disk. -/
theorem failure_leaves_files (env : Env) (fs : FS) (vp : String) (c : Video)
    (h1 : lookupFile fs.external vp = some c) (h2 : env.failAt = some 0)
    (h3 : 0 < c.declared) (h4 : c.frames ≠ []) :
    (process_video env fs (some vp) "test").result = PyRes.ok none ∧
    lookupFile (process_video env fs (some vp) "test").fs.uploads (basename vp)
      = some c ∧
    (lookupFile (process_video env fs (some vp) "test").fs.processed
        ("processed_" ++ basename vp)).isSome = true := by
  obtain ⟨m, hm⟩ : ∃ m, c.declared.toNat = m + 1 := ⟨c.declared.toNat - 1, by omega⟩
  obtain ⟨f, rest, hfr⟩ : ∃ f rest, c.frames = f :: rest := by
    cases hc : c.frames with
    | nil => exact absurd hc h4
    | cons f rest => exact ⟨f, rest, rfl⟩
  have hsetup : lookupFile (setFile fs.uploads (basename vp) c) (basename vp)
      = some c := lookupFile_setFile_self _ _ _
  simp only [process_video, h1, hsetup, apply_ml_processing, h2, hm, hfr, mlLoop,
    if_neg (by decide : ¬ ("test" = "demo"))]
  simp [hsetup, List.foldl_cons, List.foldl_nil, lookupFile_setFile_self]

/-- C9 witness: a write fault on the first frame of a one-frame video. -/
theorem failure_leaves_files_witness :
    lookupFile (FS.mk [("u/a.mp4", vidOne)] [] [] []).external "u/a.mp4"
      = some vidOne ∧
    (Env.mk cannyStub (some 0)).failAt = some 0 ∧
    (0 : ℤ) < vidOne.declared ∧
    vidOne.frames ≠ [] ∧
    ((process_video (Env.mk cannyStub (some 0)) (FS.mk [("u/a.mp4", vidOne)] [] [] [])
          (some "u/a.mp4") "test").result = PyRes.ok none ∧
      lookupFile (process_video (Env.mk cannyStub (some 0))
          (FS.mk [("u/a.mp4", vidOne)] [] [] [])
          (some "u/a.mp4") "test").fs.uploads (basename "u/a.mp4") = some vidOne ∧
      (lookupFile (process_video (Env.mk cannyStub (some 0))
          (FS.mk [("u/a.mp4", vidOne)] [] [] [])
          (some "u/a.mp4") "test").fs.processed
          ("processed_" ++ basename "u/a.mp4")).isSome = true) :=
  ⟨rfl, rfl, by decide, by simp [vidOne],
   failure_leaves_files (Env.mk cannyStub (some 0))
     (FS.mk [("u/a.mp4", vidOne)] [] [] []) "u/a.mp4" vidOne rfl rfl (by decide)
     (by simp [vidOne])⟩

theorem demo_processing_ok (v : Video) (name : String) (files : List String) :
    (demo_processing (some v) name files true).calls = demoSteps ∧
    ∃ q, (demo_processing (some v) name files true).result = PyRes.ok q := by
  by_cases hf : files = []
  · subst hf
    exact ⟨rfl, _, rfl⟩
  · constructor
    · simp [demo_processing, hf]
    · exact ⟨"demo_videos/" ++ files.headD "", by simp [demo_processing, hf]⟩

/-- C4 (amended): across a dispatcher invocation that returns a non-null
result, the progress fractions from the second call onward are monotonically
non-decreasing and the final call reports 1.0; the very first transition
(from the 0.1 upload signal to the transcode loop's 0.0 starting signal in
test mode) can decrease, since the dispatcher has already emitted 0.1. -/
theorem progress_tail_monotone_final_one (env : Env) (fs : FS)
    (video : Option String) (mode : String) (p : String)
    (h : (process_video env fs video mode).result = PyRes.ok (some p)) :
    List.Chain' (· ≤ ·)
      (((process_video env fs video mode).calls.map Prod.fst).tail) ∧
    ((process_video env fs video mode).calls.map Prod.fst).getLast?
      = some (1 : ℚ) := by
  cases video with
  | none => simp [process_video] at h
  | some vp =>
    cases hle : lookupFile fs.external vp with
    | none => simp [process_video, hle] at h
    | some content =>
      have hsetup : lookupFile (setFile fs.uploads (basename vp) content)
          (basename vp) = some content := lookupFile_setFile_self _ _ _
      by_cases hmode : mode = "demo"
      · obtain ⟨hdc, q, hq⟩ := demo_processing_ok content (basename vp)
          (fs.demos.map (fun x => x.1))
        have hcalls : (process_video env fs (some vp) mode).calls
            = [((1 : ℚ)/10, "Video uploaded and saved")] ++ demoSteps
              ++ [((1 : ℚ), "Processing complete!")] := by
          simp only [process_video, hle, if_pos hmode, hsetup, hq, hdc]
        rw [hcalls]
        obtain ⟨htail, hlast⟩ := dispatchCalls_tail_last demoSteps
        rw [htail]
        exact ⟨demoSteps_chain, hlast⟩
      · by_cases hraised : (mlLoop env.canny content.declared env.failAt true
            content.declared.toNat 0 content.frames 0).2.2
        · exfalso
          simp only [process_video, hle, if_neg hmode, hsetup, apply_ml_processing,
            if_pos hraised] at h
          simp at h
        · have hfr := mlLoop_noraise_fracs env.canny content.declared env.failAt
            content.declared.toNat content.frames 0 0 (by simpa using hraised)
          have hcalls : (process_video env fs (some vp) mode).calls
              = [((1 : ℚ)/10, "Video uploaded and saved")]
                ++ ([((0 : ℚ), "Starting video processing...")]
                  ++ (mlLoop env.canny content.declared env.failAt true
                      content.declared.toNat 0 content.frames 0).2.1)
                ++ [((1 : ℚ), "Processing complete!")] := by
            simp only [process_video, hle, if_neg hmode, hsetup, apply_ml_processing,
              if_neg hraised, if_true]
          rw [hcalls]
          obtain ⟨htail, hlast⟩ := dispatchCalls_tail_last
            ([((0 : ℚ), "Starting video processing...")]
              ++ (mlLoop env.canny content.declared env.failAt true
                  content.declared.toNat 0 content.frames 0).2.1)
          rw [htail]
          refine ⟨?_, hlast⟩
          simp only [List.map_append, List.map_cons, List.map_nil,
            List.singleton_append, List.cons_append]
          rw [hfr]
          cases hk : min content.declared.toNat content.frames.length with
          | zero =>
            norm_num [List.chain'_cons, List.chain'_singleton]
          | succ j =>
            simp only [List.nil_append]
            have ht0 : (0 : ℤ) < content.declared := by omega
            have htq : (0 : ℚ) < (content.declared : ℚ) := by exact_mod_cast ht0
            apply List.chain'_cons'.mpr
            refine ⟨?_, ?_⟩
            · intro y hy
              rw [List.range_succ_eq_map] at hy
              simp only [List.map_cons, List.cons_append, List.head?_cons,
                Option.mem_def, Option.some.injEq] at hy
              subst hy
              exact div_nonneg (by positivity) (le_of_lt htq)
            · have hzle : (j + 1 : ℤ) ≤ content.declared := by omega
              have hqle : ((0 : ℕ) : ℚ) + ((j + 1 : ℕ) : ℚ) ≤ (content.declared : ℚ) := by
                have hj : ((j : ℚ) + 1) ≤ (content.declared : ℚ) := by exact_mod_cast hzle
                push_cast
                linarith
              exact chainAux (content.declared : ℚ) htq (j + 1) 0 hqle

/-- C4 counterexample: a test-mode invocation that returns a non-null
result whose full fraction sequence 0.1, 0, 1 is not monotonically
non-decreasing (the claim as stated is refuted by the drop from the 0.1
upload signal to the loop's 0.0 starting signal). -/
theorem progress_not_monotone_testmode :
    (process_video ⟨cannyStub, none⟩ (FS.mk [("a.mp4", vidEmpty)] [] [] [])
        (some "a.mp4") "test").result
      = PyRes.ok (some "processed_videos/processed_a.mp4") ∧
    ¬ List.Chain' (· ≤ ·)
      ((process_video ⟨cannyStub, none⟩ (FS.mk [("a.mp4", vidEmpty)] [] [] [])
          (some "a.mp4") "test").calls.map Prod.fst) := by
  constructor
  · rfl
  · intro hch
    have he : (process_video ⟨cannyStub, none⟩ (FS.mk [("a.mp4", vidEmpty)] [] [] [])
        (some "a.mp4") "test").calls.map Prod.fst = [(1 : ℚ)/10, 0, 1] := rfl
    rw [he] at hch
    rcases List.chain'_cons.mp hch with ⟨hle, -⟩
    norm_num at hle

/-- C4 witness: a demo-mode invocation with a pre-existing demo asset. -/
theorem progress_tail_monotone_final_one_witness :
    (process_video ⟨cannyStub, none⟩
        (FS.mk [("b.mp4", vidOne)] [] [] [("d.mp4", VideoOut.mk 1 1 30 [])])
        (some "b.mp4") "demo").result = PyRes.ok (some "demo_videos/d.mp4") ∧
    (List.Chain' (· ≤ ·)
        (((process_video ⟨cannyStub, none⟩
            (FS.mk [("b.mp4", vidOne)] [] [] [("d.mp4", VideoOut.mk 1 1 30 [])])
            (some "b.mp4") "demo").calls.map Prod.fst).tail) ∧
      ((process_video ⟨cannyStub, none⟩
          (FS.mk [("b.mp4", vidOne)] [] [] [("d.mp4", VideoOut.mk 1 1 30 [])])
          (some "b.mp4") "demo").calls.map Prod.fst).getLast? = some (1 : ℚ)) :=
  ⟨rfl, progress_tail_monotone_final_one ⟨cannyStub, none⟩
    (FS.mk [("b.mp4", vidOne)] [] [] [("d.mp4", VideoOut.mk 1 1 30 [])])
    (some "b.mp4") "demo" "demo_videos/d.mp4" rfl⟩
